import Mathlib

/-!
Shallow embedding of the scheduler core of `src/App.tsx` (ai_livestream).

The queue is a `List AudioItem`; statuses follow `src/types.ts`
(`PLAYING | QUEUED | COMPLETED`).  Each operation below translates one
queue-mutating handler of `App.tsx`.  Presentation-only fields
(`filename`, `duration`, `timestamp`, `audioUrl`) are never consulted by
any scheduler decision in the source, so the embedding keeps the fields
the scheduler reads: `id`, `description`, `status`, `source`.
-/

namespace AiLivestream

/-- `AudioSource` from `src/types.ts`. -/
inductive AudioSource where
  | AI
  | MANUAL
deriving DecidableEq, Repr

/-- `AudioStatus` from `src/types.ts`: `PLAYING | QUEUED | COMPLETED`. -/
inductive AudioStatus where
  | PLAYING
  | QUEUED
  | COMPLETED
deriving DecidableEq, Repr

instance : BEq AudioStatus := ⟨fun a b => decide (a = b)⟩

instance : LawfulBEq AudioStatus where
  eq_of_beq h := by simpa using of_decide_eq_true h
  rfl := by intro a; simp [BEq.beq]

/-- `AudioItem` from `src/types.ts`, restricted to the fields the
scheduler core reads. -/
structure AudioItem where
  id : String
  description : String
  status : AudioStatus
  source : AudioSource
deriving DecidableEq, Repr

/-- One candidate event of a poll/chat response body (`data.events[i]`):
the scheduler reads `event.id` and `event.description`/`event.text`. -/
structure N8NEvent where
  id : String
  description : String
deriving DecidableEq, Repr

/-- `i.status === AudioStatus.PLAYING`. -/
def isPlaying (i : AudioItem) : Bool :=
  i.status == AudioStatus.PLAYING

/-- JS `String.prototype.includes` on exploded strings: `pat` occurs as a
contiguous substring. -/
def includesAux (pat : List Char) : List Char → Bool
  | [] => pat.isPrefixOf []
  | c :: cs => pat.isPrefixOf (c :: cs) || includesAux pat cs

/-- `s.includes(pat)` of JS, used by the priority classifier. -/
def strIncludes (s pat : String) : Bool :=
  includesAux pat.data s.data

/-- `App.tsx` line 280: the fixed priority keyword list. -/
def importantKeywords : List String :=
  ["Goal", "Penalty", "Red Card", "Yellow Card", "VAR"]

/-- `App.tsx` line 281: an item is priority when its description contains
one of the keywords (`importantKeywords.some(k => i.description?.includes(k))`). -/
def isPriority (i : AudioItem) : Bool :=
  importantKeywords.any (fun k => strIncludes i.description k)

/-- `App.tsx` lines 240-243, the dedup loop of `pollN8N`:
each event is dropped iff its `id` equals the current `lastEventRef`
cursor; an accepted event advances the cursor to its own `id`.
Returns the accepted events in arrival order and the final cursor. -/
def processEvents : List N8NEvent → String → List N8NEvent × String
  | [], cursor => ([], cursor)
  | e :: es, cursor =>
    if e.id == cursor then processEvents es cursor
    else
      let rest := processEvents es e.id
      (e :: rest.1, rest.2)

/-- `App.tsx` lines 259-268: an accepted poll event becomes a `QUEUED`
AI-sourced queue item. -/
def toAudioItem (e : N8NEvent) : AudioItem :=
  { id := e.id
    description := e.description
    status := AudioStatus.QUEUED
    source := AudioSource.AI }

/-- `newQueue[0].status = PLAYING` of the source: force the head of a
(nonempty) list to `PLAYING`. -/
def setHeadPlaying : List AudioItem → List AudioItem
  | [] => []
  | h :: t => { h with status := AudioStatus.PLAYING } :: t

/-- `prev.findIndex(i => i.status === PLAYING)`, as an `Option Nat`
(`-1` of JS becomes `none`). -/
def findPlayingIdx : List AudioItem → Option Nat
  | [] => none
  | h :: t => if isPlaying h then some 0 else (findPlayingIdx t).map (· + 1)

/-- `newQueue.splice(currentPlayingIndex, 1)` after the index was obtained
with `findIndex(isPlaying)`: drop the first `PLAYING` item.  (The source
first overwrites that slot with a `COMPLETED` copy, then splices the very
same slot out, so the net effect on the array is removal.) -/
def spliceFirstPlaying : List AudioItem → List AudioItem
  | [] => []
  | h :: t => if isPlaying h then t else h :: spliceFirstPlaying t

/-- `App.tsx` lines 90-109, `handleAudioEnded` (Completion): if some item
is `PLAYING`, remove it; then, if the remainder is nonempty and auto-play
is on, force the new head to `PLAYING`. -/
def handleAudioEnded (autoPlay : Bool) (q : List AudioItem) : List AudioItem :=
  match findPlayingIdx q with
  | none => q
  | some _ =>
    let newQueue := spliceFirstPlaying q
    if 0 < newQueue.length && autoPlay then setHeadPlaying newQueue else newQueue

/-- `updatedQueue.splice(n, 0, ...xs)`: insert `xs` at position `n`. -/
def insertAt (n : Nat) (xs ys : List AudioItem) : List AudioItem :=
  ys.take n ++ xs ++ ys.drop n

/-- `updatedQueue.find(i => i.status === QUEUED)` followed by
`nextToPlay.status = PLAYING`: promote the first `QUEUED` item (no-op when
none exists). -/
def promoteFirstQueued : List AudioItem → List AudioItem
  | [] => []
  | h :: t =>
    if h.status == AudioStatus.QUEUED then { h with status := AudioStatus.PLAYING } :: t
    else h :: promoteFirstQueued t

/-- `App.tsx` lines 279-303, the `updatedQueue` computation of the poll
merge: priority items go right after the `PLAYING` item (or to the front,
the first forced `PLAYING`, when nothing plays), normal items to the
tail. -/
def pollMergeUpdated (prev newItems : List AudioItem) : List AudioItem :=
  let priorityItems := newItems.filter isPriority
  let normalItems := newItems.filter (fun i => !(isPriority i))
  if 0 < priorityItems.length then
    match findPlayingIdx prev with
    | some i => insertAt (i + 1) priorityItems prev ++ normalItems
    | none => (setHeadPlaying priorityItems ++ prev) ++ normalItems
  else prev ++ newItems

/-- `App.tsx` lines 275-313, the `setQueue` updater of `pollN8N` (queue
part): the `updatedQueue` merge followed by lines 305-311, promoting the
first `QUEUED` item when nothing plays and auto-play is on.  `newItems`
are the freshly accepted events (all created `QUEUED`); `autoPlay` is
`currentSettings.autoPlay` as captured at the start of the poll (the
forced-on value written for priority items is not visible to the
promotion check in the same updater). -/
def pollMergeQueue (autoPlay : Bool) (prev newItems : List AudioItem) : List AudioItem :=
  let updatedQueue := pollMergeUpdated prev newItems
  if !(updatedQueue.any isPlaying) && autoPlay then promoteFirstQueued updatedQueue
  else updatedQueue

/-- `App.tsx` lines 287-292: the poll merge forces auto-play on exactly
when the batch contains a priority item. -/
def pollMergeAutoPlay (autoPlay : Bool) (newItems : List AudioItem) : Bool :=
  if 0 < (newItems.filter isPriority).length then true else autoPlay

/-- `App.tsx` lines 415-430, `handleStop` (queue part): every `PLAYING`
item becomes `COMPLETED`; nothing is removed and nothing is promoted. -/
def handleStopQueue (q : List AudioItem) : List AudioItem :=
  q.map (fun i =>
    if i.status == AudioStatus.PLAYING then { i with status := AudioStatus.COMPLETED } else i)

/-- `App.tsx` lines 432-434, `handleClear`: keep only the `PLAYING` item(s). -/
def handleClearQueue (q : List AudioItem) : List AudioItem :=
  q.filter isPlaying

/-- `App.tsx` lines 436-456, `handleRemoveItem` (queue part): drop every
item with the given id; then, if nothing is `PLAYING`, auto-play is on and
the queue is nonempty, force the head to `PLAYING`. -/
def handleRemoveItem (autoPlay : Bool) (id : String) (q : List AudioItem) : List AudioItem :=
  let newQueue := q.filter (fun i => !(i.id == id))
  if !(newQueue.any isPlaying) && autoPlay && 0 < newQueue.length then setHeadPlaying newQueue
  else newQueue

/-- `App.tsx` lines 458-485, `handleManualPlay` (queue part): no-op when
the id is absent; otherwise move that item to the front as `PLAYING` and
demote every other `PLAYING` item to `QUEUED` (`COMPLETED` stays as is). -/
def handleManualPlay (id : String) (q : List AudioItem) : List AudioItem :=
  match q.find? (fun i => i.id == id) with
  | none => q
  | some itemToPlay =>
    let otherItems := (q.filter (fun i => !(i.id == id))).map (fun i =>
      if i.status == AudioStatus.PLAYING then { i with status := AudioStatus.QUEUED } else i)
    { itemToPlay with status := AudioStatus.PLAYING } :: otherItems

/-- `App.tsx` lines 487-500, `handleManualStopItem`: if the named item is
`PLAYING`, mark it `COMPLETED` in place; otherwise no-op. -/
def handleManualStopItem (id : String) (q : List AudioItem) : List AudioItem :=
  match q.find? (fun i => i.id == id) with
  | none => q
  | some item =>
    if item.status == AudioStatus.PLAYING then
      q.map (fun i =>
        if i.id == id then { i with status := AudioStatus.COMPLETED } else i)
    else q

/-- `App.tsx` lines 384-396, `handleManualUpload` (queue part): the new
`QUEUED` manual item goes right behind the `PLAYING` item if one exists,
else to the very front, forced `PLAYING`. -/
def handleManualUpload (newItem : AudioItem) (q : List AudioItem) : List AudioItem :=
  match q.find? isPlaying with
  | some playing => playing :: newItem :: q.filter (fun i => !(isPlaying i))
  | none => setHeadPlaying (newItem :: q.filter (fun i => !(isPlaying i)))

/-- `App.tsx` lines 622-646, the `setQueue` updater of `handleChatSubmit`:
chat items (all `QUEUED`) go between the `PLAYING` item and the waiting
rest; with nothing `PLAYING` the first chat item is forced `PLAYING`.
The updater only runs when the batch is nonempty. -/
def handleChatInject (newItems : List AudioItem) (q : List AudioItem) : List AudioItem :=
  if 0 < newItems.length then
    match q.find? isPlaying with
    | some playing => playing :: (newItems ++ q.filter (fun i => !(isPlaying i)))
    | none => setHeadPlaying (newItems ++ q.filter (fun i => !(isPlaying i)))
  else q

/-- Scheduler state visible to the claims: the queue and the auto-play
flag of the settings. -/
structure SchedState where
  queue : List AudioItem
  autoPlay : Bool
deriving DecidableEq, Repr

/-- `App.tsx` lines 401-413, `handleSkip`: auto-play is switched on, but
the Completion step (`handleAudioEnded`) reads `settings.autoPlay` from
the same render closure, i.e. the value from BEFORE the switch. -/
def handleSkip (s : SchedState) : SchedState :=
  { queue := handleAudioEnded s.autoPlay s.queue, autoPlay := true }

/-- `App.tsx` lines 415-430, `handleStop` as a whole: the queue update of
`handleStopQueue` together with disabling auto-play. -/
def handleStop (s : SchedState) : SchedState :=
  { queue := handleStopQueue s.queue, autoPlay := false }

/-- Number of `PLAYING` items in a queue. -/
def countPlaying (q : List AudioItem) : Nat :=
  (q.filter isPlaying).length

/-- One atomic mutation of the scheduler state: each constructor is one
queue-mutating handler of `App.tsx` (plus the settings/auto-play effect it
performs).  Poll-merge and inject batches carry the fact, true of the
source constructors (lines 259-268, 366-375, 607-616), that every freshly
built item is `QUEUED`. -/
inductive Step : SchedState → SchedState → Prop where
  | poll (newItems : List AudioItem) (s : SchedState)
      (h : ∀ i ∈ newItems, i.status = AudioStatus.QUEUED) :
      Step s ⟨pollMergeQueue s.autoPlay s.queue newItems,
              pollMergeAutoPlay s.autoPlay newItems⟩
  | audioEnded (s : SchedState) :
      Step s ⟨handleAudioEnded s.autoPlay s.queue, s.autoPlay⟩
  | skip (s : SchedState) : Step s (handleSkip s)
  | stop (s : SchedState) : Step s (handleStop s)
  | clear (s : SchedState) : Step s ⟨handleClearQueue s.queue, s.autoPlay⟩
  | remove (id : String) (s : SchedState) :
      Step s ⟨handleRemoveItem s.autoPlay id s.queue, s.autoPlay⟩
  | manualPlay (id : String) (s : SchedState) :
      Step s ⟨handleManualPlay id s.queue, true⟩
  | manualStopItem (id : String) (s : SchedState) :
      Step s ⟨handleManualStopItem id s.queue, s.autoPlay⟩
  | manualUpload (newItem : AudioItem) (s : SchedState)
      (h : newItem.status = AudioStatus.QUEUED) :
      Step s ⟨handleManualUpload newItem s.queue, true⟩
  | chatInject (newItems : List AudioItem) (s : SchedState)
      (h : ∀ i ∈ newItems, i.status = AudioStatus.QUEUED) :
      Step s ⟨handleChatInject newItems s.queue,
              if 0 < newItems.length then true else s.autoPlay⟩
  | reorder (q : List AudioItem) (s : SchedState) (h : q.Perm s.queue) :
      Step s ⟨q, s.autoPlay⟩
  | reset (s : SchedState) : Step s ⟨[], s.autoPlay⟩

/-- States reachable from an empty queue by any sequence of poll merges
and commands. -/
inductive Reachable : SchedState → Prop where
  | init (a : Bool) : Reachable ⟨[], a⟩
  | step {s t : SchedState} : Reachable s → Step s t → Reachable t

/-- Session state touched by a poll completion (`App.tsx` refs and queue):
`lastEvent` is `lastEventRef.current`, `lastStats` is
`lastStatsRef.current`, `matchId` the active context, `mounted` the
`isMounted` flag of the polling effect (cleared only when the effect keyed
on `isStarted` is torn down — NOT on a match switch). -/
structure PollSystem where
  queue : List AudioItem
  lastEvent : String
  lastStats : Option String
  matchId : String
  mounted : Bool
deriving DecidableEq, Repr

/-- A successful poll response body: `data.currentStats` and `data.events`. -/
structure PollResponse where
  currentStats : Option String
  events : List N8NEvent
deriving DecidableEq, Repr

/-- `App.tsx` lines 230-313, the success path of `pollN8N` after `await`.
`capturedAutoPlay` is `currentSettings.autoPlay`, read from `settingsRef`
when the request was ISSUED (line 176, before the `await`).  On
completion, everything is guarded only by `isMounted` — neither the
captured `matchId` nor any other session tag is compared against the
current session.  Stats are stored, events are deduplicated against
`lastEventRef` (which advances), and a nonempty accepted batch is merged
into the queue. -/
def completePoll (capturedAutoPlay : Bool) (sys : PollSystem) (resp : PollResponse) :
    PollSystem :=
  if sys.mounted then
    let sys1 :=
      match resp.currentStats with
      | some st => { sys with lastStats := some st }
      | none => sys
    if 0 < resp.events.length then
      let accepted := processEvents resp.events sys1.lastEvent
      let newItems := accepted.1.map toAudioItem
      if 0 < newItems.length then
        { sys1 with
            lastEvent := accepted.2
            queue := pollMergeQueue capturedAutoPlay sys1.queue newItems }
      else { sys1 with lastEvent := accepted.2 }
    else sys1
  else sys

/-- `App.tsx` lines 74-85, `saveSettings` with a changed `matchId`:
history refs reset, queue cleared, context switched.  The `isMounted` flag
of the running poll effect is untouched (the effect only depends on
`isStarted`). -/
def resetToMatch (newMatchId : String) (sys : PollSystem) : PollSystem :=
  { sys with
      queue := []
      lastEvent := ""
      lastStats := none
      matchId := newMatchId }

/-- The failure kinds of a poll (`App.tsx` lines 338-348): an aborted
fetch (the 8s timeout fires `controller.abort()`, surfacing as
`AbortError`), a network error, or a thrown non-success HTTP response. -/
inductive PollError where
  | abortError
  | networkError
  | httpError (status : Nat)
deriving DecidableEq, Repr

/-- Connectivity flag and tick bookkeeping of the polling loop. -/
structure PollLoopState where
  queue : List AudioItem
  lastEvent : String
  n8nConnection : Bool
  scheduledTicks : Nat
  mounted : Bool
deriving DecidableEq, Repr

/-- `App.tsx` lines 338-348, the `catch`/`finally` of `pollN8N`: a
non-abort error flips `n8nConnection` off (when mounted); an `AbortError`
is filtered out by `error.name !== 'AbortError'` and changes nothing; the
`finally` always schedules exactly one more tick while mounted. -/
def pollFailure (err : PollError) (s : PollLoopState) : PollLoopState :=
  let s1 :=
    match err with
    | PollError.abortError => s
    | _ => if s.mounted then { s with n8nConnection := false } else s
  if s.mounted then { s1 with scheduledTicks := s1.scheduledTicks + 1 } else s1

/-- `App.tsx` line 189: `pollCountRef.current % 5 === 0 || pollCountRef.current === 1`
(the counter is incremented before the check, so attempt `n` sees value `n`). -/
def shouldCallApi (pollCount : Nat) : Bool :=
  pollCount % 5 == 0 || pollCount == 1

/-- `App.tsx` line 207: the request body's `skipApi` hint is
`!shouldCallApi`. -/
def skipApi (pollCount : Nat) : Bool :=
  !(shouldCallApi pollCount)

theorem countPlaying_cons (i : AudioItem) (q : List AudioItem) :
    countPlaying (i :: q) = (if isPlaying i = true then 1 else 0) + countPlaying q := by
  by_cases h : isPlaying i = true <;> simp [countPlaying, List.filter_cons, h] <;> omega

theorem countPlaying_append (xs ys : List AudioItem) :
    countPlaying (xs ++ ys) = countPlaying xs + countPlaying ys := by
  simp [countPlaying, List.filter_append]

theorem countPlaying_eq_zero_iff (q : List AudioItem) :
    countPlaying q = 0 ↔ q.any isPlaying = false := by
  induction q with
  | nil => simp [countPlaying]
  | cons i t ih =>
    by_cases h : isPlaying i = true <;> simp [countPlaying_cons, h, ih]

theorem countPlaying_filter_le (p : AudioItem → Bool) (q : List AudioItem) :
    countPlaying (q.filter p) ≤ countPlaying q := by
  induction q with
  | nil => simp
  | cons i t ih =>
    by_cases hp : p i = true <;> by_cases hpl : isPlaying i = true <;>
      simp [List.filter_cons, hp, countPlaying_cons, hpl] <;> omega

theorem countPlaying_eq_zero_of_queued (q : List AudioItem)
    (h : ∀ i ∈ q, i.status = AudioStatus.QUEUED) : countPlaying q = 0 := by
  induction q with
  | nil => rfl
  | cons i t ih =>
    have hi : isPlaying i = false := by
      simp [isPlaying, h i (List.mem_cons_self i t)]
    rw [countPlaying_cons]
    simp [hi, ih (fun j hj => h j (List.mem_cons_of_mem _ hj))]

theorem countPlaying_setHeadPlaying_le (q : List AudioItem) (h : countPlaying q = 0) :
    countPlaying (setHeadPlaying q) ≤ 1 := by
  cases q with
  | nil => simp [setHeadPlaying, countPlaying]
  | cons i t =>
    rw [countPlaying_cons] at h
    have ht : countPlaying t = 0 := by omega
    simp [setHeadPlaying, countPlaying_cons, isPlaying, ht]

theorem countPlaying_of_findPlayingIdx_none (q : List AudioItem)
    (h : findPlayingIdx q = none) : countPlaying q = 0 := by
  induction q with
  | nil => rfl
  | cons i t ih =>
    by_cases hp : isPlaying i = true
    · simp [findPlayingIdx, hp] at h
    · rw [countPlaying_cons]
      simp [findPlayingIdx, hp, Option.map_eq_none'] at h
      simp [hp, ih h]

theorem countPlaying_spliceFirstPlaying (q : List AudioItem) (h : countPlaying q ≤ 1) :
    countPlaying (spliceFirstPlaying q) = 0 := by
  induction q with
  | nil => rfl
  | cons i t ih =>
    rw [countPlaying_cons] at h
    by_cases hp : isPlaying i = true
    · simp [hp] at h
      simpa [spliceFirstPlaying, hp] using by omega
    · simp [hp] at h
      simp [spliceFirstPlaying, hp, countPlaying_cons, ih h]

theorem countPlaying_promoteFirstQueued (q : List AudioItem) (h : countPlaying q = 0) :
    countPlaying (promoteFirstQueued q) ≤ 1 := by
  induction q with
  | nil => simp [promoteFirstQueued, countPlaying]
  | cons i t ih =>
    rw [countPlaying_cons] at h
    by_cases hp : isPlaying i = true
    · simp [hp] at h
    · simp [hp] at h
      by_cases hq : (i.status == AudioStatus.QUEUED) = true
      · simp [promoteFirstQueued, hq, countPlaying_cons, isPlaying, h]
      · simp [promoteFirstQueued, hq, countPlaying_cons, hp, ih h]

theorem countPlaying_insertAt (n : Nat) (xs ys : List AudioItem) :
    countPlaying (insertAt n xs ys) = countPlaying xs + countPlaying ys := by
  have h1 : countPlaying (insertAt n xs ys)
      = countPlaying (ys.take n) + countPlaying xs + countPlaying (ys.drop n) := by
    rw [insertAt, countPlaying_append, countPlaying_append]
  have h2 : countPlaying (ys.take n) + countPlaying (ys.drop n) = countPlaying ys := by
    rw [← countPlaying_append, List.take_append_drop]
  omega

theorem countPlaying_perm {q q' : List AudioItem} (h : q.Perm q') :
    countPlaying q = countPlaying q' := by
  simpa [countPlaying] using (h.filter isPlaying).length_eq

theorem countPlaying_filter_not_playing (q : List AudioItem) :
    countPlaying (q.filter (fun i => !(isPlaying i))) = 0 := by
  induction q with
  | nil => rfl
  | cons i t ih =>
    by_cases hp : isPlaying i = true <;>
      simp [List.filter_cons, hp, countPlaying_cons, ih]

theorem countPlaying_handleStopQueue (q : List AudioItem) :
    countPlaying (handleStopQueue q) = 0 := by
  induction q with
  | nil => rfl
  | cons i t ih =>
    by_cases hs : (i.status == AudioStatus.PLAYING) = true
    · simp only [handleStopQueue, List.map_cons] at ih ⊢
      rw [countPlaying_cons]
      simpa [isPlaying, hs] using ih
    · simp only [handleStopQueue, List.map_cons] at ih ⊢
      rw [countPlaying_cons]
      simpa [isPlaying, hs] using ih

theorem countPlaying_demote_map (q : List AudioItem) :
    countPlaying (q.map (fun i =>
      if i.status == AudioStatus.PLAYING then { i with status := AudioStatus.QUEUED }
      else i)) = 0 := by
  induction q with
  | nil => rfl
  | cons i t ih =>
    rw [List.map_cons, countPlaying_cons]
    by_cases hs : (i.status == AudioStatus.PLAYING) = true
    · simpa [isPlaying, hs] using ih
    · simpa [isPlaying, hs] using ih

theorem countPlaying_map_le (f : AudioItem → AudioItem)
    (hf : ∀ i, isPlaying (f i) = true → isPlaying i = true) (q : List AudioItem) :
    countPlaying (q.map f) ≤ countPlaying q := by
  induction q with
  | nil => simp
  | cons i t ih =>
    rw [List.map_cons, countPlaying_cons, countPlaying_cons]
    by_cases hp : isPlaying (f i) = true
    · have hi := hf i hp
      simp only [hp, hi, if_pos]
      omega
    · simp only [hp, if_neg, if_false]
      by_cases hq : isPlaying i = true <;> simp [hq] <;> omega

theorem countPlaying_handleAudioEnded (a : Bool) (q : List AudioItem)
    (h : countPlaying q ≤ 1) : countPlaying (handleAudioEnded a q) ≤ 1 := by
  cases hf : findPlayingIdx q with
  | none => simpa [handleAudioEnded, hf] using h
  | some i =>
    have hs : countPlaying (spliceFirstPlaying q) = 0 := countPlaying_spliceFirstPlaying q h
    simp only [handleAudioEnded, hf]
    split
    · exact countPlaying_setHeadPlaying_le _ hs
    · omega

theorem countPlaying_pollMergeUpdated (prev newItems : List AudioItem)
    (hq : ∀ i ∈ newItems, i.status = AudioStatus.QUEUED)
    (h : countPlaying prev ≤ 1) :
    countPlaying (pollMergeUpdated prev newItems) ≤ 1 := by
  have hnew : countPlaying newItems = 0 := countPlaying_eq_zero_of_queued _ hq
  have hpri : countPlaying (newItems.filter isPriority) = 0 :=
    countPlaying_eq_zero_of_queued _ (fun i hi => hq i (List.mem_of_mem_filter hi))
  have hnorm : countPlaying (newItems.filter (fun i => !(isPriority i))) = 0 :=
    countPlaying_eq_zero_of_queued _ (fun i hi => hq i (List.mem_of_mem_filter hi))
  simp only [pollMergeUpdated]
  split
  · cases hf : findPlayingIdx prev with
    | some i =>
      rw [countPlaying_append, countPlaying_insertAt, hpri, hnorm]
      omega
    | none =>
      have h0 : countPlaying prev = 0 := countPlaying_of_findPlayingIdx_none _ hf
      rw [countPlaying_append, countPlaying_append, hnorm, h0]
      have hh := countPlaying_setHeadPlaying_le _ hpri
      omega
  · rw [countPlaying_append, hnew]
    omega

theorem countPlaying_pollMergeQueue (a : Bool) (prev newItems : List AudioItem)
    (hq : ∀ i ∈ newItems, i.status = AudioStatus.QUEUED)
    (h : countPlaying prev ≤ 1) :
    countPlaying (pollMergeQueue a prev newItems) ≤ 1 := by
  have hU := countPlaying_pollMergeUpdated prev newItems hq h
  simp only [pollMergeQueue]
  split
  · rename_i hcond
    simp only [Bool.and_eq_true, Bool.not_eq_true'] at hcond
    exact countPlaying_promoteFirstQueued _ ((countPlaying_eq_zero_iff _).2 hcond.1)
  · exact hU

theorem countPlaying_handleRemoveItem (a : Bool) (id : String) (q : List AudioItem)
    (h : countPlaying q ≤ 1) :
    countPlaying (handleRemoveItem a id q) ≤ 1 := by
  have hfil : countPlaying (q.filter (fun i => !(i.id == id))) ≤ 1 :=
    le_trans (countPlaying_filter_le _ q) h
  simp only [handleRemoveItem]
  split
  · rename_i hcond
    simp only [Bool.and_eq_true, Bool.not_eq_true'] at hcond
    exact countPlaying_setHeadPlaying_le _ ((countPlaying_eq_zero_iff _).2 hcond.1.1)
  · exact hfil

theorem countPlaying_handleManualPlay (id : String) (q : List AudioItem)
    (h : countPlaying q ≤ 1) : countPlaying (handleManualPlay id q) ≤ 1 := by
  simp only [handleManualPlay]
  cases hfind : q.find? (fun i => i.id == id) with
  | none => exact h
  | some itemToPlay =>
    rw [countPlaying_cons, countPlaying_demote_map]
    simp [isPlaying]

theorem countPlaying_handleManualStopItem (id : String) (q : List AudioItem)
    (h : countPlaying q ≤ 1) : countPlaying (handleManualStopItem id q) ≤ 1 := by
  unfold handleManualStopItem
  split
  · exact h
  · split
    · refine le_trans (countPlaying_map_le _ ?_ q) h
      intro i hi
      by_cases hid : (i.id == id) = true
      · simp [hid, isPlaying] at hi
      · simpa [hid] using hi
    · exact h

theorem countPlaying_handleManualUpload (newItem : AudioItem) (q : List AudioItem)
    (hn : newItem.status = AudioStatus.QUEUED) :
    countPlaying (handleManualUpload newItem q) ≤ 1 := by
  simp only [handleManualUpload]
  cases hfind : q.find? isPlaying with
  | some playing =>
    have hp : isPlaying playing = true := List.find?_some hfind
    have hnp : isPlaying newItem = false := by simp [isPlaying, hn]
    rw [countPlaying_cons, countPlaying_cons, countPlaying_filter_not_playing, hp, hnp]
    simp
  | none =>
    apply countPlaying_setHeadPlaying_le
    have hnp : isPlaying newItem = false := by simp [isPlaying, hn]
    rw [countPlaying_cons, countPlaying_filter_not_playing, hnp]
    simp

theorem countPlaying_handleChatInject (newItems : List AudioItem) (q : List AudioItem)
    (hq : ∀ i ∈ newItems, i.status = AudioStatus.QUEUED)
    (h : countPlaying q ≤ 1) :
    countPlaying (handleChatInject newItems q) ≤ 1 := by
  have hnew : countPlaying newItems = 0 := countPlaying_eq_zero_of_queued _ hq
  simp only [handleChatInject]
  split
  · cases hfind : q.find? isPlaying with
    | some playing =>
      have hp : isPlaying playing = true := List.find?_some hfind
      rw [countPlaying_cons, countPlaying_append, hnew, countPlaying_filter_not_playing]
      simp [hp]
    | none =>
      apply countPlaying_setHeadPlaying_le
      rw [countPlaying_append, hnew, countPlaying_filter_not_playing]
  · exact h

/-- Claim C1: starting from an empty queue, no sequence of poll merges
and operator commands (completion, skip, stop, clear, remove, explicit
play, explicit per-item stop, permutation reorder, manual inject, chat
inject, context reset) ever leaves more than one item in the `PLAYING`
state. -/
theorem singleActiveInvariant (s : SchedState) (h : Reachable s) :
    countPlaying s.queue ≤ 1 := by
  induction h with
  | init a => simp [countPlaying]
  | step hr hstep ih =>
    cases hstep with
    | poll newItems s hq => exact countPlaying_pollMergeQueue _ _ _ hq ih
    | audioEnded s => exact countPlaying_handleAudioEnded _ _ ih
    | skip s =>
      simp only [handleSkip]
      exact countPlaying_handleAudioEnded _ _ ih
    | stop s =>
      simp only [handleStop]
      simp [countPlaying_handleStopQueue]
    | clear s => exact le_trans (countPlaying_filter_le _ _) ih
    | remove id s => exact countPlaying_handleRemoveItem _ _ _ ih
    | manualPlay id s => exact countPlaying_handleManualPlay _ _ ih
    | manualStopItem id s => exact countPlaying_handleManualStopItem _ _ ih
    | manualUpload newItem s hn => exact countPlaying_handleManualUpload _ _ hn
    | chatInject newItems s hq => exact countPlaying_handleChatInject _ _ hq ih
    | reorder q s hperm =>
      have hq := countPlaying_perm hperm
      show countPlaying q ≤ 1
      omega
    | reset s => simp [countPlaying]

/-- Witness for C1 at a concrete reachable state: one manual upload into
the empty queue. -/
theorem singleActiveInvariant_witness :
    countPlaying (handleManualUpload
      ⟨"m1", "Manual Override: clip.mp3", AudioStatus.QUEUED, AudioSource.MANUAL⟩ []) ≤ 1 :=
  singleActiveInvariant _
    (Reachable.step (Reachable.init false)
      (Step.manualUpload ⟨"m1", "Manual Override: clip.mp3", AudioStatus.QUEUED,
        AudioSource.MANUAL⟩ ⟨[], false⟩ rfl))

theorem processEvents_head_ne (es : List N8NEvent) (c : String) :
    ∀ e, (processEvents es c).1.head? = some e → ¬ e.id = c := by
  induction es generalizing c with
  | nil =>
    intro e he
    simp [processEvents] at he
  | cons x xs ih =>
    intro e he
    by_cases hx : (x.id == c) = true
    · rw [processEvents, if_pos hx] at he
      exact ih c e he
    · rw [processEvents, if_neg hx] at he
      simp at he
      subst he
      simpa using hx

/-- Claim C2 counterexample: the event id "a" is submitted in two
consecutive poll batches ([a, b] and then [a] again).  The duplicate
check compares only against the `lastEventRef` cursor — which is "b" when
the second batch arrives — so a SECOND live queue item with id "a" enters
the queue, refuting both the claimed queue-membership check and the
claimed exactly-once consequence. -/
theorem dedupQueueCheck_cex :
    ((pollMergeQueue true
        (pollMergeQueue true []
          ((processEvents [⟨"a", "x"⟩, ⟨"b", "y"⟩] "").1.map toAudioItem))
        ((processEvents [⟨"a", "x"⟩]
            ((processEvents [⟨"a", "x"⟩, ⟨"b", "y"⟩] "").2)).1.map toAudioItem)).filter
      (fun i => i.id == "a")).length = 2 := by decide

/-- Claim C2 (amended): the Deduplicator accepts a candidate iff its id
differs from the current `lastSeenEventId` cursor (queue contents are not
consulted), advancing the cursor to each accepted id; consequently the
same event id submitted in two consecutive poll batches yields exactly
one item when that id is the cursor at the second poll (here: singleton
batches). -/
theorem dedup_cursor_advance (x : N8NEvent) (c : String) (h : ¬ x.id = c) :
    (processEvents [x] c).1 = [x] ∧ (processEvents [x] (processEvents [x] c).2).1 = [] := by
  have hb : (x.id == c) = false := by simpa using h
  constructor
  · simp [processEvents, hb]
  · simp [processEvents, hb]

/-- Witness for the amended C2 at concrete inputs. -/
theorem dedup_cursor_advance_witness :
    ¬ (("a" : String) = "b") ∧
      ((processEvents [⟨"a", "x"⟩] "b").1 = [⟨"a", "x"⟩] ∧
        (processEvents [⟨"a", "x"⟩] (processEvents [⟨"a", "x"⟩] "b").2).1 = []) :=
  ⟨by decide, dedup_cursor_advance ⟨"a", "x"⟩ "b" (by decide)⟩

/-- Claim C3 (confirmed): with exactly the active item A in the queue and
a merged batch consisting of one priority event P followed by one normal
event N (both freshly `QUEUED`), the resulting queue is `[A, P, N]`. -/
theorem priorityOrdering (a : Bool) (A P N : AudioItem)
    (hA : A.status = AudioStatus.PLAYING)
    (hP : isPriority P = true) (hPs : P.status = AudioStatus.QUEUED)
    (hN : isPriority N = false) (hNs : N.status = AudioStatus.QUEUED) :
    pollMergeQueue a [A] [P, N] = [A, P, N] := by
  have hiA : isPlaying A = true := by simp [isPlaying, hA]
  have hupd : pollMergeUpdated [A] [P, N] = [A, P, N] := by
    simp [pollMergeUpdated, List.filter_cons, hP, hN, findPlayingIdx, hiA, insertAt]
  rw [pollMergeQueue]
  rw [hupd]
  simp [List.any_cons, hiA]

/-- Witness for C3 at concrete items. -/
theorem priorityOrdering_witness :
    pollMergeQueue true
      [⟨"a1", "intro chat", AudioStatus.PLAYING, AudioSource.AI⟩]
      [⟨"p1", "Goal - Home 1-0", AudioStatus.QUEUED, AudioSource.AI⟩,
       ⟨"n1", "nice passing move", AudioStatus.QUEUED, AudioSource.AI⟩]
      = [⟨"a1", "intro chat", AudioStatus.PLAYING, AudioSource.AI⟩,
         ⟨"p1", "Goal - Home 1-0", AudioStatus.QUEUED, AudioSource.AI⟩,
         ⟨"n1", "nice passing move", AudioStatus.QUEUED, AudioSource.AI⟩] :=
  priorityOrdering true _ _ _ rfl (by decide) rfl (by decide) rfl

/-- Claim C4 (code bug), evaluated at the failing input: queue
`[A PLAYING, B QUEUED]` with auto-play OFF.  Skip prunes A and switches
auto-play on, but B is left `QUEUED` — NOT promoted — because the
Completion step inside `handleSkip` reads the pre-skip `settings.autoPlay`
from the render closure, defeating the source's own stated intent
("Enable autoplay if disabled, to ensure next item plays"). -/
theorem skip_stale_autoplay_eval :
    handleSkip ⟨[⟨"A", "headline", AudioStatus.PLAYING, AudioSource.AI⟩,
                 ⟨"B", "followup", AudioStatus.QUEUED, AudioSource.AI⟩], false⟩
      = ⟨[⟨"B", "followup", AudioStatus.QUEUED, AudioSource.AI⟩], true⟩ := by decide

/-- Claim C5 counterexample: after stop on `[A PLAYING, B QUEUED]`, an
item with id "A" is STILL in the queue (it turned `COMPLETED` in place),
refuting the claimed pruning. -/
theorem stop_prunes_cex :
    ((handleStop ⟨[⟨"A", "headline", AudioStatus.PLAYING, AudioSource.AI⟩,
                   ⟨"B", "followup", AudioStatus.QUEUED, AudioSource.AI⟩], true⟩).queue.any
      (fun i => i.id == "A")) = true := by decide

/-- Claim C5 (amended): stop transitions the ACTIVE item A to `COMPLETED`
but RETAINS it in the queue (no pruning), leaves B `QUEUED` and
unpromoted, and disables auto-play. -/
theorem handleStop_spec (a : Bool) (A B : AudioItem)
    (hA : A.status = AudioStatus.PLAYING) (hB : B.status = AudioStatus.QUEUED) :
    handleStop ⟨[A, B], a⟩
      = ⟨[{ A with status := AudioStatus.COMPLETED }, B], false⟩ := by
  simp [handleStop, handleStopQueue, hA, hB]

/-- Witness for the amended C5 at concrete items. -/
theorem handleStop_spec_witness :
    handleStop ⟨[⟨"A", "headline", AudioStatus.PLAYING, AudioSource.AI⟩,
                 ⟨"B", "followup", AudioStatus.QUEUED, AudioSource.AI⟩], true⟩
      = ⟨[⟨"A", "headline", AudioStatus.COMPLETED, AudioSource.AI⟩,
          ⟨"B", "followup", AudioStatus.QUEUED, AudioSource.AI⟩], false⟩ :=
  handleStop_spec true _ _ rfl rfl

/-- Claim C6 counterexample: a poll issued under match "X" (still in
flight, `isMounted` still true) completes after the session was reset to
match "Y".  The completion handler checks only `isMounted`, so it DOES
mutate Y's queue and `lastEventRef` cursor. -/
theorem staleSession_mutates_cex :
    ¬ ((completePoll true
          (resetToMatch "Y" ⟨[], "", none, "X", true⟩)
          ⟨none, [⟨"e1", "Kickoff"⟩]⟩).queue = []) ∧
      ¬ ((completePoll true
          (resetToMatch "Y" ⟨[], "", none, "X", true⟩)
          ⟨none, [⟨"e1", "Kickoff"⟩]⟩).lastEvent = "") ∧
      (resetToMatch "Y" ⟨[], "", none, "X", true⟩).matchId = "Y" := by decide

/-- Claim C6 (amended): polls carry no session/context tag — the only
guard on completion is the polling effect's liveness flag (`isMounted`).
A response arriving after the effect is torn down mutates nothing; a
match switch alone leaves the flag set, so a stale-context response does
mutate the new session (see the counterexample). -/
theorem completePoll_unmounted_noop (a : Bool) (sys : PollSystem) (resp : PollResponse)
    (h : sys.mounted = false) : completePoll a sys resp = sys := by
  simp [completePoll, h]

/-- Witness for the amended C6 at a concrete unmounted state. -/
theorem completePoll_unmounted_noop_witness :
    (⟨[], "x", none, "X", false⟩ : PollSystem).mounted = false ∧
      completePoll true ⟨[], "x", none, "X", false⟩ ⟨some "st", [⟨"e", "d"⟩]⟩
        = ⟨[], "x", none, "X", false⟩ :=
  ⟨rfl, completePoll_unmounted_noop true _ _ rfl⟩

/-- Claim C7 counterexample: a queue reachable from empty by two poll
merges (batches [a, b] and then [a] again) holds TWO live items with id
"a" — queue ids are not pairwise distinct, because the duplicate check
consults only the cursor and not the live queue. -/
theorem queueIdUnique_cex :
    Reachable ⟨pollMergeQueue
        (pollMergeAutoPlay true
          [⟨"a", "x", AudioStatus.QUEUED, AudioSource.AI⟩,
           ⟨"b", "y", AudioStatus.QUEUED, AudioSource.AI⟩])
        (pollMergeQueue true []
          [⟨"a", "x", AudioStatus.QUEUED, AudioSource.AI⟩,
           ⟨"b", "y", AudioStatus.QUEUED, AudioSource.AI⟩])
        [⟨"a", "x", AudioStatus.QUEUED, AudioSource.AI⟩],
      pollMergeAutoPlay
        (pollMergeAutoPlay true
          [⟨"a", "x", AudioStatus.QUEUED, AudioSource.AI⟩,
           ⟨"b", "y", AudioStatus.QUEUED, AudioSource.AI⟩])
        [⟨"a", "x", AudioStatus.QUEUED, AudioSource.AI⟩]⟩ ∧
    ¬ ((pollMergeQueue
        (pollMergeAutoPlay true
          [⟨"a", "x", AudioStatus.QUEUED, AudioSource.AI⟩,
           ⟨"b", "y", AudioStatus.QUEUED, AudioSource.AI⟩])
        (pollMergeQueue true []
          [⟨"a", "x", AudioStatus.QUEUED, AudioSource.AI⟩,
           ⟨"b", "y", AudioStatus.QUEUED, AudioSource.AI⟩])
        [⟨"a", "x", AudioStatus.QUEUED, AudioSource.AI⟩]).map (fun i => i.id)).Nodup :=
  ⟨Reachable.step
      (Reachable.step (Reachable.init true)
        (Step.poll
          [⟨"a", "x", AudioStatus.QUEUED, AudioSource.AI⟩,
           ⟨"b", "y", AudioStatus.QUEUED, AudioSource.AI⟩] ⟨[], true⟩ (by decide)))
      (Step.poll [⟨"a", "x", AudioStatus.QUEUED, AudioSource.AI⟩] _ (by decide)),
    by decide⟩

/-- Claim C7 (amended): queue-wide id uniqueness is NOT enforced (chat
and manual injection never check ids, and the poll dedup checks only the
cursor); what the cursor check does guarantee is that consecutively
accepted poll events always carry distinct ids. -/
theorem dedup_adjacent_distinct (es : List N8NEvent) (c : String) :
    List.Chain' (fun x y => ¬ x = y) ((processEvents es c).1.map (fun e => e.id)) := by
  induction es generalizing c with
  | nil => simp [processEvents]
  | cons x xs ih =>
    by_cases hx : (x.id == c) = true
    · rw [processEvents, if_pos hx]
      exact ih c
    · rw [processEvents, if_neg hx]
      rw [List.map_cons, List.chain'_cons']
      constructor
      · intro y hy
        rw [List.head?_map] at hy
        cases hhd : (processEvents xs x.id).1.head? with
        | none => rw [hhd] at hy; simp at hy
        | some e =>
          rw [hhd] at hy
          simp at hy
          subst hy
          exact fun hcontra => processEvents_head_ne xs x.id e hhd hcontra.symm
      · exact ih x.id

/-- Claim C8 counterexample: a TIMEOUT failure (the 8-second abort) does
NOT flag connectivity down — the catch clause filters out `AbortError`
before touching `n8nConnection`. -/
theorem timeout_connectivity_cex :
    ¬ ((pollFailure PollError.abortError ⟨[], "", true, 0, true⟩).n8nConnection = false) := by
  decide

/-- Claim C8 (amended): every poll failure leaves the queue and the
`lastSeenEventId` cursor unchanged and schedules exactly one more tick;
a network error or non-success HTTP response flags connectivity down,
but a timeout (abort) leaves the connectivity flag unchanged. -/
theorem pollFailure_spec (err : PollError) (s : PollLoopState) (hm : s.mounted = true) :
    (pollFailure err s).queue = s.queue ∧
    (pollFailure err s).lastEvent = s.lastEvent ∧
    (pollFailure err s).scheduledTicks = s.scheduledTicks + 1 ∧
    (¬ err = PollError.abortError → (pollFailure err s).n8nConnection = false) ∧
    (err = PollError.abortError → (pollFailure err s).n8nConnection = s.n8nConnection) := by
  cases err <;> simp [pollFailure, hm]

/-- Witness for the amended C8 at a concrete mounted failure. -/
theorem pollFailure_spec_witness :
    (⟨[], "e9", true, 4, true⟩ : PollLoopState).mounted = true ∧
      ((pollFailure PollError.networkError ⟨[], "e9", true, 4, true⟩).queue = [] ∧
        (pollFailure PollError.networkError ⟨[], "e9", true, 4, true⟩).lastEvent = "e9" ∧
        (pollFailure PollError.networkError ⟨[], "e9", true, 4, true⟩).scheduledTicks = 4 + 1 ∧
        (¬ PollError.networkError = PollError.abortError →
          (pollFailure PollError.networkError ⟨[], "e9", true, 4, true⟩).n8nConnection = false) ∧
        (PollError.networkError = PollError.abortError →
          (pollFailure PollError.networkError ⟨[], "e9", true, 4, true⟩).n8nConnection = true)) :=
  ⟨rfl, pollFailure_spec PollError.networkError ⟨[], "e9", true, 4, true⟩ rfl⟩

/-- Claim C9 counterexample: removing an ABSENT id ("z") from the queue
`[B QUEUED]` with auto-play on is NOT a no-op — the promotion step at the
end of `handleRemoveItem` runs anyway and flips B to `PLAYING`. -/
theorem removeAbsent_promotes_cex :
    ¬ (handleRemoveItem true "z" [⟨"B", "followup", AudioStatus.QUEUED, AudioSource.AI⟩]
        = [⟨"B", "followup", AudioStatus.QUEUED, AudioSource.AI⟩]) := by decide

/-- Claim C9 (amended): explicit play on an absent id is an exact no-op;
remove on an absent id deletes nothing and is a no-op whenever something
is `PLAYING`, auto-play is off, or the queue is empty — but when nothing
is `PLAYING`, auto-play is on and the queue is nonempty, it still
promotes the head item to `PLAYING`. -/
theorem absentCommand_spec (a : Bool) (id : String) (q : List AudioItem)
    (habs : q.find? (fun i => i.id == id) = none) :
    handleManualPlay id q = q ∧
    (q.any isPlaying = true ∨ a = false ∨ q = [] → handleRemoveItem a id q = q) ∧
    (q.any isPlaying = false → a = true → 0 < q.length →
      handleRemoveItem a id q = setHeadPlaying q) := by
  have hfil : q.filter (fun i => !(i.id == id)) = q := by
    rw [List.filter_eq_self]
    intro i hi
    have hni := List.find?_eq_none.mp habs i hi
    simpa using hni
  refine ⟨?_, ?_, ?_⟩
  · simp [handleManualPlay, habs]
  · intro hcase
    rcases hcase with hpl | ha | hq
    · simp [handleRemoveItem, hfil, hpl]
    · simp [handleRemoveItem, hfil, ha]
    · subst hq
      simp [handleRemoveItem]
  · intro hpl ha hlen
    simp [handleRemoveItem, hfil, hpl, ha, hlen]

/-- Witness for the amended C9: remove and play of the absent id "z" on a
one-item queue with nothing playing and auto-play on. -/
theorem absentCommand_spec_witness :
    (List.find? (fun i => i.id == "z")
        [AudioItem.mk "B" "followup" AudioStatus.QUEUED AudioSource.AI] = none) ∧
      (handleManualPlay "z" [AudioItem.mk "B" "followup" AudioStatus.QUEUED AudioSource.AI]
          = [AudioItem.mk "B" "followup" AudioStatus.QUEUED AudioSource.AI] ∧
        ([AudioItem.mk "B" "followup" AudioStatus.QUEUED AudioSource.AI].any isPlaying = true ∨
            (true : Bool) = false ∨
            [AudioItem.mk "B" "followup" AudioStatus.QUEUED AudioSource.AI] = [] →
          handleRemoveItem true "z"
              [AudioItem.mk "B" "followup" AudioStatus.QUEUED AudioSource.AI]
            = [AudioItem.mk "B" "followup" AudioStatus.QUEUED AudioSource.AI]) ∧
        ([AudioItem.mk "B" "followup" AudioStatus.QUEUED AudioSource.AI].any isPlaying = false →
          (true : Bool) = true →
          0 < [AudioItem.mk "B" "followup" AudioStatus.QUEUED AudioSource.AI].length →
          handleRemoveItem true "z"
              [AudioItem.mk "B" "followup" AudioStatus.QUEUED AudioSource.AI]
            = setHeadPlaying [AudioItem.mk "B" "followup" AudioStatus.QUEUED AudioSource.AI])) := by
  refine ⟨by decide, ?_⟩
  exact absentCommand_spec true "z" _ (by decide)

/-- Claim C10 counterexample: the skip hint is FALSE on the very first
tick (the first poll is a full call), not true as claimed. -/
theorem skipApi_first_tick_cex : ¬ (skipApi 1 = true) := by decide

/-- Claim C10 (amended): counting attempts from 1, the
skip-expensive-upstream hint is false on the first tick and on every
5th tick (those are the "full" calls), and true on every other tick
(the "cheap" calls). -/
theorem skipApi_schedule (n : Nat) (h : 1 ≤ n) :
    (n % 5 = 0 → skipApi n = false) ∧ (n = 1 → skipApi n = false) ∧
    (¬ n % 5 = 0 → ¬ n = 1 → skipApi n = true) := by
  refine ⟨?_, ?_, ?_⟩
  · intro h5
    simp [skipApi, shouldCallApi, h5]
  · intro h1
    subst h1
    decide
  · intro h5 h1
    have hb5 : (n % 5 == 0) = false := by simpa using h5
    have hb1 : (n == 1) = false := by simpa using h1
    simp [skipApi, shouldCallApi, hb5, hb1]

/-- Witness for the amended C10 at attempt 7 (a cheap tick). -/
theorem skipApi_schedule_witness :
    1 ≤ 7 ∧ ((7 % 5 = 0 → skipApi 7 = false) ∧ (7 = 1 → skipApi 7 = false) ∧
      (¬ 7 % 5 = 0 → ¬ 7 = 1 → skipApi 7 = true)) :=
  ⟨by decide, skipApi_schedule 7 (by decide)⟩

end AiLivestream
